import Mathlib

/-!
Verification of the web-scraper-youtube pipeline (Python source under
`scraper/`). Each Python function used by the claims is shallowly embedded
as an executable Lean definition; Python `float` prices are modelled as `ℚ`
(the transformer only selects and compares prices, it performs no float
arithmetic), Python `None` as `Option`, and Python exceptions as
`Except String`.
-/

namespace Scraper

/-! ### Python string primitives

Character-level models of the Python `str` methods used by `scraper/utils.py`
(`lower`, `strip`, `replace(" ", "-")`).  `str.lower` is modelled on its
ASCII fragment: `slugify` immediately replaces every character outside
`[a-z0-9-]` with a dash, so non-ASCII case mapping cannot affect any claim
proved here. -/

/-- Model of Python `str.lower` on one character (ASCII fragment). -/
def asciiLower (c : Char) : Char :=
  if 65 ≤ c.toNat ∧ c.toNat ≤ 90 then Char.ofNat (c.toNat + 32) else c

/-- Whitespace as recognised by Python `str.strip()` (ASCII part plus the
common Unicode space characters; all have code points outside `[a-z0-9-]`). -/
def pyIsSpace (c : Char) : Bool :=
  c.toNat = 9 ∨ c.toNat = 10 ∨ c.toNat = 11 ∨ c.toNat = 12 ∨ c.toNat = 13 ∨
    c.toNat = 32 ∨ c.toNat = 133 ∨ c.toNat = 160 ∨
    (8192 ≤ c.toNat ∧ c.toNat ≤ 8202) ∨ c.toNat = 8232 ∨ c.toNat = 8233 ∨
    c.toNat = 8239 ∨ c.toNat = 8287 ∨ c.toNat = 12288

/-- Python `str.strip(chars)`: drop characters satisfying `p` from both
ends. -/
def stripEnds (p : α → Bool) (l : List α) : List α :=
  ((l.dropWhile p).reverse.dropWhile p).reverse

/-- Python `str.strip()` on a list of characters. -/
def pyStripList (l : List Char) : List Char :=
  stripEnds pyIsSpace l

/-- Python `str.strip()`. -/
def pyStrip (s : String) : String :=
  String.mk (pyStripList s.data)

/-- Python `str.lower` on a whole string (ASCII fragment; used for file
extensions, which are ASCII). -/
def pyLowerStr (s : String) : String :=
  String.mk (s.data.map asciiLower)

/-- Python `str.split(",")` on the character list: split at every comma. -/
def splitOnComma : List Char → List (List Char)
  | [] => [[]]
  | c :: cs =>
      match splitOnComma cs with
      | [] => [[]]
      | seg :: rest => if c = ',' then [] :: seg :: rest else (c :: seg) :: rest

/-! ### `scraper/utils.py` -/

/-- The character class `[a-z0-9-]` of `_SLUGIFY_PATTERN` (the regex matches
one or more characters NOT in this class). -/
def allowedChar (c : Char) : Bool :=
  (97 ≤ c.toNat ∧ c.toNat ≤ 122) ∨ (48 ≤ c.toNat ∧ c.toNat ≤ 57) ∨ c = '-'

mutual
/-- `re.sub(r"[^a-z0-9-]+", "-", value)`: replace each maximal run of
disallowed characters by a single dash. -/
def subRuns : List Char → List Char
  | [] => []
  | c :: cs => if allowedChar c then c :: subRuns cs else '-' :: skipRun cs

/-- State of `subRuns` inside a run of disallowed characters (the dash for
the run has already been emitted). -/
def skipRun : List Char → List Char
  | [] => []
  | c :: cs => if allowedChar c then c :: subRuns cs else skipRun cs
end

mutual
/-- `re.sub(r"-+", "-", value)`: collapse each run of dashes to one dash. -/
def collapseDashes : List Char → List Char
  | [] => []
  | c :: cs => if c = '-' then '-' :: dropDashes cs else c :: collapseDashes cs

/-- State of `collapseDashes` inside a run of dashes (one dash already
emitted for the run). -/
def dropDashes : List Char → List Char
  | [] => []
  | c :: cs => if c = '-' then dropDashes cs else c :: collapseDashes cs
end

/-- Python `value.strip("-")`. -/
def stripDashes (l : List Char) : List Char :=
  stripEnds (fun c => c = '-') l

/-- `scraper/utils.py` `slugify`.  The input is a `String` (the Python
`value or ""` guard only matters for `None`, which the `str` annotation
excludes); `replace(" ", "-")` is character-wise since both pattern and
replacement are single characters. -/
def slugify (value : String) : String :=
  let v1 := value.data.map asciiLower
  let v2 := (pyStripList v1).map (fun c => if c = ' ' then '-' else c)
  let v3 := collapseDashes (subRuns v2)
  let v4 := stripDashes v3
  if v4.isEmpty then "product" else String.mk v4

/-- Argument type of `split_tags`: `str | Iterable[str] | None`. -/
inductive TagsInput where
  | none
  | str (s : String)
  | list (xs : List String)
  deriving DecidableEq

/-- `scraper/utils.py` `split_tags`. -/
def split_tags (raw : TagsInput) : List String :=
  match raw with
  | .none => []
  | .str s => (((splitOnComma s.data).map (fun seg => pyStrip (String.mk seg))).filter
      (fun p => p ≠ ""))
  | .list xs => ((xs.map pyStrip).filter (fun p => p ≠ ""))

/-! ### Python truthiness helpers

Python `if x:` / `x or y` on optional strings and optional numbers:
`None`, `""` and `0.0` are falsy. -/

/-- Truthiness of an `Optional[str]`. -/
def pyTruthyStr : Option String → Bool
  | Option.none => false
  | some s => s ≠ ""

/-- Python `a or b` where `a : Optional[str]` and the result is used as a
string. -/
def pyOrStr (a : Option String) (b : String) : String :=
  match a with
  | Option.none => b
  | some s => if s ≠ "" then s else b

/-- Truthiness of an `Optional[float]` (modelled as `Option ℚ`). -/
def pyTruthyNum : Option ℚ → Bool
  | Option.none => false
  | some q => q ≠ 0

/-! ### `scraper/models.py` -/

/-- `RawProductData`: intermediate representation extracted from product
pages.  `float` fields are modelled as `ℚ`. -/
structure RawProductData where
  source_url : String
  title : Option String := Option.none
  sku : Option String := Option.none
  vendor : Option String := Option.none
  product_type : Option String := Option.none
  tags : List String := []
  description_html : Option String := Option.none
  description_ko : Option String := Option.none
  description_en : Option String := Option.none
  price : Option ℚ := Option.none
  sale_price : Option ℚ := Option.none
  currency : Option String := Option.none
  main_image : Option String := Option.none
  gallery_images : List String := []
  detail_images : List String := []
  deriving DecidableEq

/-- `ShopifyVariant`. -/
structure ShopifyVariant where
  sku : String
  price : ℚ
  compare_at_price : Option ℚ
  requires_shipping : Bool := true
  grams : Int := 0
  inventory_quantity : Int := 0
  inventory_policy : String := "continue"
  fulfillment_service : String := "manual"
  option1_name : String := "Title"
  option1_value : String := "Default"
  deriving DecidableEq

/-- `ShopifyImage`. -/
structure ShopifyImage where
  src : String
  position : Int
  alt_text : Option String := Option.none
  deriving DecidableEq

/-- `ShopifyRecord`. -/
structure ShopifyRecord where
  handle : String
  title : String
  body_html : String
  vendor : String
  product_type : String
  tags : List String
  published : Bool
  variants : List ShopifyVariant
  images : List ShopifyImage
  deriving DecidableEq

/-- One CSV cell: the Python row dicts mix strings and ints. -/
inductive Cell where
  | s (v : String)
  | n (v : Int)
  deriving DecidableEq

/-- One export row: the Python `dict` (its keys are pairwise distinct across
the merged `base_row`, variant and image parts, so `{**a, **b, **c}` is
ordered concatenation). -/
abbrev Row := List (String × Cell)

/-- Model of Python `f"{x:.2f}"` for a price: decimal rendering to two
places (the tie-breaking of binary-float formatting is abstracted as
rounding of the rational value). -/
def format2f (q : ℚ) : String :=
  let cents : ℤ := round (q * 100)
  let sign := if cents < 0 then "-" else ""
  let a := cents.natAbs
  let frac := a % 100
  sign ++ toString (a / 100) ++ "." ++
    (if frac < 10 then "0" ++ toString frac else toString frac)

/-- `scraper/models.py` `_empty_variant_row`. -/
def _empty_variant_row : Row :=
  [("Option1 Name", .s "Title"),
   ("Option1 Value", .s "Default"),
   ("Variant SKU", .s ""),
   ("Variant Price", .s ""),
   ("Variant Compare At Price", .s ""),
   ("Variant Inventory Qty", .n 0),
   ("Variant Inventory Policy", .s "continue"),
   ("Variant Fulfillment Service", .s "manual"),
   ("Variant Requires Shipping", .s "TRUE"),
   ("Variant Grams", .n 0)]

/-- `scraper/models.py` `_empty_image_row`. -/
def _empty_image_row : Row :=
  [("Image Src", .s ""), ("Image Position", .s ""), ("Image Alt Text", .s "")]

/-- `scraper/models.py` `_image_row`. -/
def _image_row (images : List ShopifyImage) (variant_index : Nat) : Row :=
  if images.isEmpty then _empty_image_row
  else
    let image := images.getD (min variant_index (images.length - 1))
      { src := "", position := 0 }
    [("Image Src", .s image.src),
     ("Image Position", .n image.position),
     ("Image Alt Text", .s (pyOrStr image.alt_text ""))]

/-- The `base_row` dict built at the top of `ShopifyRecord.to_rows`. -/
def base_row (r : ShopifyRecord) : Row :=
  [("Handle", .s r.handle),
   ("Title", .s r.title),
   ("Body (HTML)", .s r.body_html),
   ("Vendor", .s r.vendor),
   ("Product Category", .s ""),
   ("Type", .s r.product_type),
   ("Tags", .s (String.intercalate "," r.tags)),
   ("Published", .s (if r.published then "TRUE" else "FALSE"))]

/-- The per-variant dict built inside the loop of `ShopifyRecord.to_rows`.
`f"..." if variant.compare_at_price else ""` uses Python truthiness, so a
zero compare-at price also renders as the empty string. -/
def variant_row (v : ShopifyVariant) : Row :=
  [("Option1 Name", .s v.option1_name),
   ("Option1 Value", .s v.option1_value),
   ("Variant SKU", .s v.sku),
   ("Variant Price", .s (format2f v.price)),
   ("Variant Compare At Price",
     .s (if pyTruthyNum v.compare_at_price then
           format2f (v.compare_at_price.getD 0) else "")),
   ("Variant Inventory Qty", .n v.inventory_quantity),
   ("Variant Inventory Policy", .s v.inventory_policy),
   ("Variant Fulfillment Service", .s v.fulfillment_service),
   ("Variant Requires Shipping", .s (if v.requires_shipping then "TRUE" else "FALSE")),
   ("Variant Grams", .n v.grams)]

/-- `scraper/models.py` `ShopifyRecord.to_rows`. -/
def ShopifyRecord.to_rows (r : ShopifyRecord) : List Row :=
  if r.variants.isEmpty then
    [base_row r ++ _empty_variant_row ++ _empty_image_row]
  else
    r.variants.enum.map (fun p => base_row r ++ variant_row p.2 ++ _image_row r.images p.1)

/-! ### `scraper/transform.py` -/

/-- `scraper/transform.py` `raw_to_shopify`.  The price conditionals are
Python truthiness tests: `raw.sale_price if raw.sale_price else raw.price
or 0.0` and `raw.price if raw.sale_price else raw.sale_price`. -/
def raw_to_shopify (raw : RawProductData) : ShopifyRecord :=
  let handle := slugify (pyOrStr raw.title (pyOrStr raw.sku raw.source_url))
  let effective_price : ℚ :=
    if pyTruthyNum raw.sale_price then raw.sale_price.getD 0
    else if pyTruthyNum raw.price then raw.price.getD 0 else 0
  let compare_at : Option ℚ :=
    if pyTruthyNum raw.sale_price then raw.price else raw.sale_price
  let variant : ShopifyVariant :=
    { sku := pyOrStr raw.sku handle
      price := effective_price
      compare_at_price := compare_at }
  let images : List ShopifyImage :=
    (if pyTruthyStr raw.main_image then
      [{ src := raw.main_image.getD "", position := 1, alt_text := raw.title }]
     else []) ++
    (raw.gallery_images.enumFrom 2).map
      (fun p => { src := p.2, position := (p.1 : Int), alt_text := raw.title })
  let body0 := pyOrStr raw.description_html ""
  let body_html :=
    if raw.detail_images.isEmpty then body0
    else body0 ++ String.join (raw.detail_images.map (fun src =>
      "<p><img src=\"" ++ src ++ "\" alt=\"" ++ pyOrStr raw.title handle ++ "\" /></p>"))
  { handle := handle
    title := pyOrStr raw.title "Untitled Product"
    body_html := body_html
    vendor := pyOrStr raw.vendor "Unknown"
    product_type := pyOrStr raw.product_type "General"
    tags := raw.tags
    published := true
    variants := [variant]
    images := images }

/-! ### `scraper/client.py`

`Cafe24Client.fetch` performs `requests.get` (which may raise on connection
failure or timeout), then calls `self._apply_delay()` (a `time.sleep`), then
`response.raise_for_status()` (which raises on 4xx/5xx).  The network
outcome and the random jitter draw are inputs of the model; the sleep is
recorded in the returned trace as the slept duration (`Option ℚ`, `none`
when the sleep line was never reached because `requests.get` raised). -/

/-- `RequestConfig` (user-agent fields omitted: they do not affect the
delay/result behaviour modelled here). -/
structure RequestConfig where
  base_delay : ℚ := 3
  jitter : ℚ := 2
  deriving DecidableEq

/-- What the network does for one `requests.get` call. -/
inductive NetOutcome where
  | transportError (msg : String)
  | response (status : Nat) (body : String)
  deriving DecidableEq

instance {ε α : Type} [DecidableEq ε] [DecidableEq α] : DecidableEq (Except ε α) :=
  fun a b =>
    match a, b with
    | .ok x, .ok y =>
        match decEq x y with
        | isTrue h => isTrue (h ▸ rfl)
        | isFalse h => isFalse (fun hh => h (Except.ok.inj hh))
    | .error x, .error y =>
        match decEq x y with
        | isTrue h => isTrue (h ▸ rfl)
        | isFalse h => isFalse (fun hh => h (Except.error.inj hh))
    | .ok _, .error _ => isFalse (fun h => Except.noConfusion h)
    | .error _, .ok _ => isFalse (fun h => Except.noConfusion h)

/-- Observable trace of one `fetch` call: the slept duration (if the sleep
was reached) and the returned body or raised error. -/
structure FetchTrace where
  slept : Option ℚ
  result : Except String String
  deriving DecidableEq

/-- `Cafe24Client.fetch`.  `jitterDraw` is the value of
`random.uniform(0, jitter)` drawn by `_apply_delay`. -/
def fetch (cfg : RequestConfig) (jitterDraw : ℚ) (o : NetOutcome) : FetchTrace :=
  match o with
  | .transportError msg =>
      -- `requests.get` raised: the `_apply_delay()` line is never executed.
      { slept := Option.none, result := .error msg }
  | .response status body =>
      let delay := cfg.base_delay + jitterDraw
      if 400 ≤ status ∧ status < 600 then
        { slept := some delay, result := .error ("HTTP " ++ toString status) }
      else
        { slept := some delay, result := .ok body }

/-! ### `scraper/ingest.py` -/

/-- `ProductInput`: a single product URL entry. -/
structure ProductInput where
  url : String
  deriving DecidableEq

/-- A JSON value, as produced by `json.load`. -/
inductive JsonValue where
  | jnull
  | jbool (b : Bool)
  | jnum (q : ℚ)
  | jstr (s : String)
  | jarr (items : List JsonValue)
  | jobj (fields : List (String × JsonValue))

/-- Python truthiness of a JSON value. -/
def truthyJson : JsonValue → Bool
  | .jnull => false
  | .jbool b => b
  | .jnum q => q ≠ 0
  | .jstr s => s ≠ ""
  | .jarr items => !items.isEmpty
  | .jobj fields => !fields.isEmpty

/-- The parsed content of the input file.  The loader reads the file once
and hands it to the branch selected by the extension; the model abstracts
the raw bytes as their parsed form for that branch.  For a CSV file
`header` is `reader.fieldnames` and each row is its list of cells. -/
inductive ParsedFile where
  | csv (header : List String) (rows : List (List String))
  | json (j : JsonValue)

/-- `InputLoader._validate_extension` (run in `__init__`). -/
def _validate_extension (ext : String) : Except String Unit :=
  if pyLowerStr ext = ".csv" ∨ pyLowerStr ext = ".json" then .ok ()
  else .error ("Unsupported input format: " ++ ext)

/-- `InputLoader._load_csv`.  `csv.DictReader` builds each row dict as
`dict(zip(fieldnames, row))`, so for duplicate header names the LAST
occurrence wins — hence the lookup on the reversed association list.  A
missing cell gives `row.get("url") = None`, hence `""` after `or ""`. -/
def _load_csv (header : List String) (rows : List (List String)) :
    Except String (List ProductInput) :=
  if !header.contains "url" then .error "CSV must contain a url column"
  else .ok (rows.filterMap (fun row =>
    let url := pyStrip (((header.zip row).reverse.lookup "url").getD "")
    if url = "" then Option.none else some { url := url }))

/-- One step of the generator loop in `InputLoader._load_json`: the value
bound to the local `url` before the truthiness test. -/
def jsonEntryUrl (e : JsonValue) : JsonValue :=
  match e with
  | .jstr s => .jstr s
  | .jobj fields => (fields.lookup "url").getD (.jstr "")
  | _ => .jstr ""

/-- The generator loop of `InputLoader._load_json` over the list entries.
When `url` is truthy but not a string, `url.strip()` raises
`AttributeError`, which aborts the whole `list(...)` materialisation. -/
def loadJsonEntries : List JsonValue → Except String (List ProductInput)
  | [] => .ok []
  | e :: rest =>
      let url := jsonEntryUrl e
      if truthyJson url then
        match url with
        | .jstr s => do
            let tail ← loadJsonEntries rest
            .ok ({ url := pyStrip s } :: tail)
        | _ => .error "AttributeError: no attribute strip"
      else loadJsonEntries rest

/-- `InputLoader._load_json`. -/
def _load_json (j : JsonValue) : Except String (List ProductInput) :=
  match j with
  | .jarr items => loadJsonEntries items
  | _ => .error "JSON input must be a list of objects with url"

/-- `InputLoader(path)` followed by `loader.load()`: extension validation,
then the branch chosen by `path.suffix.lower() == ".csv"`.  The two
mismatch branches are modelling artifacts (a real file's bytes would simply
be parsed by the selected branch) and are never exercised by the theorems
below. -/
def loadInputs (ext : String) (f : ParsedFile) : Except String (List ProductInput) :=
  match _validate_extension ext with
  | .error e => .error e
  | .ok _ =>
      if pyLowerStr ext = ".csv" then
        match f with
        | .csv header rows => _load_csv header rows
        | .json _ => .error "file content does not parse as CSV"
      else
        match f with
        | .json j => _load_json j
        | .csv _ _ => .error "file content does not parse as JSON"

/-! ### `scraper/pipeline.py`

`run_pipeline` drives `fetch → parse → download/prepare images → transform`
per input with a catch-all `except` that records `{url, error}` and
continues.  The three effectful stages are inputs of the model:
`fetchF` for `client.fetch` (returning the body text or the raised error),
`parseF` for `parser.parse` (total: the parser returns a `RawProductData`),
and `imagesF` for the image download/crop/optimize block that rewrites the
image fields of the raw record (it may raise).  CSV/zip/summary file writes
are abstracted to the values they serialise. -/

/-- A failure entry `{"url": ..., "error": ...}`. -/
structure FailureEntry where
  url : String
  error : String
  deriving DecidableEq

/-- The JSON object written by `_write_summary`. -/
structure Summary where
  success_count : Nat
  failure_count : Nat
  failures : List FailureEntry
  images_archive : Option String
  screenshots_archive : Option String
  deriving DecidableEq

/-- `scraper/pipeline.py` `_dedupe_inputs` (the `seen` set is modelled as
the list of urls already kept). -/
def _dedupe_inputs : List ProductInput → List ProductInput :=
  go []
where
  /-- Loop over `inputs` carrying the `seen` set. -/
  go (seen : List String) : List ProductInput → List ProductInput
    | [] => []
    | item :: rest =>
        if item.url ∈ seen then go seen rest
        else item :: go (item.url :: seen) rest

/-- `scraper/pipeline.py` `_process_single`: the per-item chain
`fetch → parse → images → raw_to_shopify`; an error at any stage aborts
this item with that error. -/
def _process_single (fetchF : String → Except String String)
    (parseF : String → String → RawProductData)
    (imagesF : RawProductData → Except String RawProductData)
    (product : ProductInput) : Except String ShopifyRecord := do
  let body ← fetchF product.url
  let raw := parseF product.url body
  let raw ← imagesF raw
  .ok (raw_to_shopify raw)

/-- The `for product in inputs` loop of `run_pipeline`: each item appends
to `records` on success and to `failures` on any exception. -/
def runItems (process : ProductInput → Except String ShopifyRecord) :
    List ProductInput → List ShopifyRecord × List FailureEntry
  | [] => ([], [])
  | product :: rest =>
      let acc := runItems process rest
      match process product with
      | .ok record => (record :: acc.1, acc.2)
      | .error e => (acc.1, { url := product.url, error := e } :: acc.2)

/-- `scraper/pipeline.py` `_write_summary` (the summary value; path
serialisation abstracted). -/
def _write_summary (records : List ShopifyRecord) (failures : List FailureEntry)
    (images_zip : Option String) (screenshots_zip : Option String) : Summary :=
  { success_count := records.length
    failure_count := failures.length
    failures := failures
    images_archive := images_zip
    screenshots_archive := screenshots_zip }

/-- The in-memory outcome of a completed `run_pipeline` call. -/
structure PipelineOutcome where
  records : List ShopifyRecord
  failures : List FailureEntry
  csv_rows : List Row
  summary : Summary
  deriving DecidableEq

/-- The body of `run_pipeline` after the inputs have been loaded:
dedupe, per-item loop, CSV rows, summary.  Archives are filesystem
side effects outside the model (`none` here, as for a run whose zips are
skipped). -/
def run_pipeline_core (fetchF : String → Except String String)
    (parseF : String → String → RawProductData)
    (imagesF : RawProductData → Except String RawProductData)
    (rawInputs : List ProductInput) : PipelineOutcome :=
  let inputs := _dedupe_inputs rawInputs
  let acc := runItems (_process_single fetchF parseF imagesF) inputs
  { records := acc.1
    failures := acc.2
    csv_rows := acc.1.flatMap ShopifyRecord.to_rows
    summary := _write_summary acc.1 acc.2 Option.none Option.none }

/-- `run_pipeline` including input loading: `InputLoader(path)` /
`loader.load()` run first and their exceptions propagate out of
`run_pipeline`, before any per-item work. -/
def run_pipeline (ext : String) (f : ParsedFile)
    (fetchF : String → Except String String)
    (parseF : String → String → RawProductData)
    (imagesF : RawProductData → Except String RawProductData) :
    Except String PipelineOutcome := do
  let rawInputs ← loadInputs ext f
  .ok (run_pipeline_core fetchF parseF imagesF rawInputs)

/-- Specification-side deduplication, written from the words of the spec
("removes exactly those entries whose url already occurred earlier, keeps
each url's first occurrence, order of kept entries unchanged"): keep the
head, then keep from the deduplicated tail exactly the entries with a
different url.  Compared against `_dedupe_inputs` in claim C4. -/
def dedupe_spec : List ProductInput → List ProductInput
  | [] => []
  | x :: xs => x :: (dedupe_spec xs).filter (fun y => y.url ≠ x.url)

/-- A JSON list entry of the two kinds the claim allows: a plain string, or
an object whose `url` value (when present) is a string. -/
def goodJsonEntry : JsonValue → Bool
  | .jstr _ => true
  | .jobj fields =>
      match fields.lookup "url" with
      | some (.jstr _) => true
      | some _ => false
      | Option.none => true
  | _ => false

/-- Whether loading succeeded. -/
def isOkE : Except String (List ProductInput) → Bool
  | .ok _ => true
  | .error _ => false

/-! ## Helper lemmas -/

theorem head?_dropWhile_not (p : α → Bool) :
    ∀ (l : List α) (a : α), (l.dropWhile p).head? = some a → p a = false := by
  intro l
  induction l with
  | nil => intro a h; simp at h
  | cons c cs ih =>
      intro a h
      rw [List.dropWhile_cons] at h
      split at h
      · exact ih a h
      · simp at h
        subst h
        simp_all

theorem head?_of_pfx {l₁ l₂ : List α} (h : l₁ <+: l₂) (a : α)
    (ha : l₁.head? = some a) : l₂.head? = some a := by
  obtain ⟨t, rfl⟩ := h
  cases l₁ with
  | nil => simp at ha
  | cons c cs => simpa using ha

theorem stripEnds_prefix_dropWhile (p : α → Bool) (l : List α) :
    stripEnds p l <+: l.dropWhile p := by
  obtain ⟨t, ht⟩ := List.dropWhile_suffix (l := (l.dropWhile p).reverse) p
  exact ⟨t.reverse, by
    show stripEnds p l ++ t.reverse = l.dropWhile p
    unfold stripEnds
    rw [← List.reverse_append, ht, List.reverse_reverse]⟩

theorem dropWhile_eq_self_of_head (p : α → Bool) (l : List α)
    (h : ∀ a, l.head? = some a → p a = false) : l.dropWhile p = l := by
  cases l with
  | nil => rfl
  | cons c cs => simp [List.dropWhile_cons, h c rfl]

theorem stripEnds_head? (p : α → Bool) (l : List α) (a : α)
    (h : (stripEnds p l).head? = some a) : p a = false :=
  head?_dropWhile_not p l a (head?_of_pfx (stripEnds_prefix_dropWhile p l) a h)

theorem stripEnds_getLast? (p : α → Bool) (l : List α) (a : α)
    (h : (stripEnds p l).getLast? = some a) : p a = false := by
  unfold stripEnds at h
  rw [List.getLast?_reverse] at h
  exact head?_dropWhile_not p _ a h

theorem stripEnds_eq_self (p : α → Bool) (l : List α)
    (h1 : ∀ a, l.head? = some a → p a = false)
    (h2 : ∀ a, l.getLast? = some a → p a = false) : stripEnds p l = l := by
  unfold stripEnds
  rw [dropWhile_eq_self_of_head p l h1]
  rw [dropWhile_eq_self_of_head p l.reverse (fun a ha => h2 a (by rwa [List.head?_reverse] at ha))]
  exact List.reverse_reverse l

theorem stripEnds_ifx (p : α → Bool) (l : List α) : stripEnds p l <:+: l :=
  (stripEnds_prefix_dropWhile p l).isInfix.trans (List.dropWhile_suffix p).isInfix

theorem stripEnds_idem (p : α → Bool) (l : List α) :
    stripEnds p (stripEnds p l) = stripEnds p l :=
  stripEnds_eq_self p _ (stripEnds_head? p l) (stripEnds_getLast? p l)

theorem pyStrip_idem (s : String) : pyStrip (pyStrip s) = pyStrip s := by
  show String.mk (stripEnds pyIsSpace (stripEnds pyIsSpace s.data)) =
    String.mk (stripEnds pyIsSpace s.data)
  rw [stripEnds_idem]

/-! ## Claims -/

/-- Claim C8: `split_tags` splits a string on commas, trims whitespace from
each segment and drops empty segments; `split_tags("Tag1, Tag2 , ,Tag3") =
["Tag1","Tag2","Tag3"]` and `split_tags(None) = []`.  The last conjunct
states the trimming/dropping contract for every input string: every
returned tag is nonempty and already stripped. -/
theorem claim_C8 :
    split_tags (.str "Tag1, Tag2 , ,Tag3") = ["Tag1", "Tag2", "Tag3"] ∧
    split_tags .none = [] ∧
    ∀ s : String, (split_tags (.str s)).Forall (fun t => t ≠ "" ∧ pyStrip t = t) := by
  refine ⟨by decide, rfl, ?_⟩
  intro s
  rw [List.forall_iff_forall_mem]
  intro t ht
  simp only [split_tags, List.mem_filter, List.mem_map] at ht
  obtain ⟨⟨x, _, hx⟩, hne⟩ := ht
  refine ⟨by simpa using hne, ?_⟩
  rw [← hx, pyStrip_idem]

/-- Claim C1 (counterexample): for `sale_price = 0.0` (present) and
`price = 5.0`, the code's truthiness test `if raw.sale_price` treats the
sale price as absent: the exported price is `5` (not the sale price `0`)
and the compare-at price is `some 0` (not the original price `some 5`),
contradicting the claim's "sale_price if present" reading. -/
theorem claim_C1_counterexample :
    ({ source_url := "u", price := some 5, sale_price := some 0 } :
        RawProductData).sale_price.isSome = true ∧
    (raw_to_shopify { source_url := "u", price := some 5, sale_price := some 0 }).variants.map
        (fun v => (v.price, v.compare_at_price)) = [(5, some 0)] ∧
    (raw_to_shopify { source_url := "u", price := some 5, sale_price := some 0 }).variants.map
        (fun v => (v.price, v.compare_at_price)) ≠ [(0, some 5)] := by
  refine ⟨rfl, by decide, by decide⟩

/-- Claim C1 (amended): the transformer's single variant has effective
price = sale_price if present AND nonzero (Python truthiness), else price
if present, else 0; compare-at = price if sale_price is present and
nonzero, else compare-at mirrors sale_price.  Note
`raw.sale_price.getD 0 ≠ 0` states exactly "present and nonzero". -/
theorem claim_C1_amended (raw : RawProductData) :
    (raw_to_shopify raw).variants.map (fun v => (v.price, v.compare_at_price)) =
      [(if raw.sale_price.getD 0 ≠ 0 then raw.sale_price.getD 0 else raw.price.getD 0,
        if raw.sale_price.getD 0 ≠ 0 then raw.price else raw.sale_price)] := by
  cases hs : raw.sale_price with
  | none =>
      cases hp : raw.price with
      | none => simp [raw_to_shopify, pyTruthyNum, hs, hp]
      | some p =>
          by_cases hz : p = 0 <;> simp [raw_to_shopify, pyTruthyNum, hs, hp, hz]
  | some sp =>
      cases hp : raw.price with
      | none => by_cases hz : sp = 0 <;> simp [raw_to_shopify, pyTruthyNum, hs, hp, hz]
      | some p =>
          by_cases hz : sp = 0 <;> by_cases hzp : p = 0 <;>
            simp [raw_to_shopify, pyTruthyNum, hs, hp, hz, hzp]

/-- Claim C2 (counterexample): when the transport call raises (connection
failure or timeout), `requests.get` raises before the `_apply_delay()` line
is reached, so no delay is applied — there is no `finally`. -/
theorem claim_C2_counterexample :
    (fetch {} 0 (.transportError "timeout")).slept = Option.none ∧
    (fetch {} 0 (.transportError "timeout")).result = .error "timeout" := by
  exact ⟨rfl, rfl⟩

/-- Claim C2 (amended): every `fetch` call whose network call returns a
response sleeps for `base_delay + uniform(0, jitter)` before returning —
including the non-2xx failure case, since the delay runs before
`raise_for_status` — but a call whose transport raises (connection failure,
timeout) skips the delay entirely. -/
theorem claim_C2_amended (cfg : RequestConfig) (draw : ℚ) (status : Nat)
    (body msg : String) :
    (fetch cfg draw (.response status body)).slept = some (cfg.base_delay + draw) ∧
    (fetch cfg draw (.transportError msg)).slept = Option.none ∧
    (fetch cfg draw (.response status body)).result =
      (if 400 ≤ status ∧ status < 600 then
        .error ("HTTP " ++ toString status) else .ok body) := by
  refine ⟨?_, rfl, ?_⟩ <;> simp [fetch] <;> split <;> rfl

theorem ProductInput.eq_of_url_eq {x y : ProductInput} (h : y.url = x.url) : y = x := by
  cases x; cases y; simpa using h

theorem dedupe_spec_filter (p : ProductInput → Bool) :
    ∀ l : List ProductInput, dedupe_spec (l.filter p) = (dedupe_spec l).filter p := by
  intro l
  induction l with
  | nil => rfl
  | cons x xs ih =>
      by_cases hx : p x = true
      · rw [List.filter_cons_of_pos hx]
        rw [dedupe_spec, dedupe_spec, ih, List.filter_cons_of_pos hx]
        rw [List.filter_comm]
      · have key : ∀ m : List ProductInput,
            m.filter p = (m.filter (fun y => y.url ≠ x.url)).filter p := by
          intro m
          rw [List.filter_filter]
          refine (List.filter_congr ?_).symm
          intro y _
          by_cases hy : p y = true
          · have : y.url ≠ x.url := by
              intro hu
              rw [ProductInput.eq_of_url_eq hu] at hy
              exact hx hy
            simp [hy, this]
          · simp [Bool.eq_false_iff.mpr hy]
        rw [List.filter_cons_of_neg (by simpa using hx), ih, dedupe_spec,
          List.filter_cons_of_neg (by simpa using hx)]
        exact key (dedupe_spec xs)

theorem dedupe_go_spec :
    ∀ (l : List ProductInput) (seen : List String),
      _dedupe_inputs.go seen l = dedupe_spec (l.filter (fun y => y.url ∉ seen)) := by
  intro l
  induction l with
  | nil => intro seen; rfl
  | cons x xs ih =>
      intro seen
      rw [_dedupe_inputs.go]
      by_cases hx : x.url ∈ seen
      · rw [if_pos hx, ih, List.filter_cons_of_neg (by simpa using hx)]
      · rw [if_neg hx, ih, List.filter_cons_of_pos (by simpa using hx)]
        rw [dedupe_spec, ← dedupe_spec_filter, List.filter_filter]
        refine congrArg _ (congrArg dedupe_spec (List.filter_congr ?_))
        intro y _
        by_cases h1 : y.url = x.url <;> by_cases h2 : y.url ∈ seen <;>
          simp [h1, h2]

/-- Claim C4: `_dedupe_inputs` removes exactly the entries whose url
already occurred earlier (exact string match), keeps each url's first
occurrence, and preserves the relative order of kept entries — stated as
equality with the specification-side `dedupe_spec`. -/
theorem claim_C4 (inputs : List ProductInput) :
    _dedupe_inputs inputs = dedupe_spec inputs := by
  rw [_dedupe_inputs, dedupe_go_spec]
  congr 1
  simp

/-- Claim C5: a record with zero variants expands to exactly one row
carrying the record's handle/title/body/vendor/type/tags/published fields
together with the placeholder (empty) variant and image fields. -/
theorem claim_C5 (r : ShopifyRecord) (h : r.variants = []) :
    r.to_rows =
      [[("Handle", .s r.handle),
        ("Title", .s r.title),
        ("Body (HTML)", .s r.body_html),
        ("Vendor", .s r.vendor),
        ("Product Category", .s ""),
        ("Type", .s r.product_type),
        ("Tags", .s (String.intercalate "," r.tags)),
        ("Published", .s (if r.published then "TRUE" else "FALSE")),
        ("Option1 Name", .s "Title"),
        ("Option1 Value", .s "Default"),
        ("Variant SKU", .s ""),
        ("Variant Price", .s ""),
        ("Variant Compare At Price", .s ""),
        ("Variant Inventory Qty", .n 0),
        ("Variant Inventory Policy", .s "continue"),
        ("Variant Fulfillment Service", .s "manual"),
        ("Variant Requires Shipping", .s "TRUE"),
        ("Variant Grams", .n 0),
        ("Image Src", .s ""),
        ("Image Position", .s ""),
        ("Image Alt Text", .s "")]] := by
  simp [ShopifyRecord.to_rows, h, base_row, _empty_variant_row, _empty_image_row]

/-- Witness for claim C5 at a concrete zero-variant record. -/
theorem claim_C5_witness :
    ({ handle := "h", title := "t", body_html := "b", vendor := "v",
       product_type := "g", tags := [], published := true, variants := [],
       images := [] } : ShopifyRecord).to_rows =
      [[("Handle", .s "h"), ("Title", .s "t"), ("Body (HTML)", .s "b"),
        ("Vendor", .s "v"), ("Product Category", .s ""), ("Type", .s "g"),
        ("Tags", .s ""), ("Published", .s "TRUE"),
        ("Option1 Name", .s "Title"), ("Option1 Value", .s "Default"),
        ("Variant SKU", .s ""), ("Variant Price", .s ""),
        ("Variant Compare At Price", .s ""), ("Variant Inventory Qty", .n 0),
        ("Variant Inventory Policy", .s "continue"),
        ("Variant Fulfillment Service", .s "manual"),
        ("Variant Requires Shipping", .s "TRUE"), ("Variant Grams", .n 0),
        ("Image Src", .s ""), ("Image Position", .s ""),
        ("Image Alt Text", .s "")]] :=
  claim_C5 _ rfl

theorem runItems_length (process : ProductInput → Except String ShopifyRecord) :
    ∀ l : List ProductInput,
      (runItems process l).1.length + (runItems process l).2.length = l.length := by
  intro l
  induction l with
  | nil => rfl
  | cons product rest ih =>
      rw [runItems]
      cases hpp : process product <;> simp [hpp] <;> omega

/-- Claim C9: in every completed run each deduplicated input contributes
exactly one element to exactly one accumulator, so
`success_count + failure_count` in the summary equals the number of
deduplicated inputs. -/
theorem claim_C9 (fetchF : String → Except String String)
    (parseF : String → String → RawProductData)
    (imagesF : RawProductData → Except String RawProductData)
    (rawInputs : List ProductInput) :
    (run_pipeline_core fetchF parseF imagesF rawInputs).summary.success_count +
      (run_pipeline_core fetchF parseF imagesF rawInputs).summary.failure_count =
      (_dedupe_inputs rawInputs).length := by
  simpa [run_pipeline_core, _write_summary] using
    runItems_length (_process_single fetchF parseF imagesF) (_dedupe_inputs rawInputs)

/-- Claim C3: any exception in one item's fetch-parse-image-transform chain
is recorded as a `{url, error}` failure entry and processing continues;
for a 3-URL input whose second URL's fetch raises, the run completes with
the two success records, one failure entry for the second URL, and a
summary with `failure_count = 1` (and `success_count = 2`). -/
theorem claim_C3 (fetchF : String → Except String String)
    (parseF : String → String → RawProductData)
    (imagesF : RawProductData → Except String RawProductData)
    (u1 u2 u3 e : String) (r1 r3 : ShopifyRecord)
    (h21 : u2 ≠ u1) (h31 : u3 ≠ u1) (h32 : u3 ≠ u2)
    (h1 : _process_single fetchF parseF imagesF ⟨u1⟩ = .ok r1)
    (h2 : fetchF u2 = .error e)
    (h3 : _process_single fetchF parseF imagesF ⟨u3⟩ = .ok r3) :
    (run_pipeline_core fetchF parseF imagesF [⟨u1⟩, ⟨u2⟩, ⟨u3⟩]).records = [r1, r3] ∧
    (run_pipeline_core fetchF parseF imagesF [⟨u1⟩, ⟨u2⟩, ⟨u3⟩]).failures = [⟨u2, e⟩] ∧
    (run_pipeline_core fetchF parseF imagesF [⟨u1⟩, ⟨u2⟩, ⟨u3⟩]).summary.failure_count = 1 ∧
    (run_pipeline_core fetchF parseF imagesF [⟨u1⟩, ⟨u2⟩, ⟨u3⟩]).summary.success_count = 2 := by
  have hp2 : _process_single fetchF parseF imagesF ⟨u2⟩ = .error e := by
    simp only [_process_single, h2]
    rfl
  refine ⟨?_, ?_, ?_, ?_⟩ <;>
    simp [run_pipeline_core, _dedupe_inputs, _dedupe_inputs.go, runItems,
      h1, hp2, h3, h21, h31, h32, _write_summary]

/-- Witness for claim C3: a concrete three-URL run whose second fetch
raises. -/
theorem claim_C3_witness :
    (run_pipeline_core
        (fun u => if u = "b" then .error "boom" else .ok "")
        (fun url _ => { source_url := url })
        .ok
        [⟨"a"⟩, ⟨"b"⟩, ⟨"c"⟩]).records =
      [raw_to_shopify { source_url := "a" }, raw_to_shopify { source_url := "c" }] ∧
    (run_pipeline_core
        (fun u => if u = "b" then .error "boom" else .ok "")
        (fun url _ => { source_url := url })
        .ok
        [⟨"a"⟩, ⟨"b"⟩, ⟨"c"⟩]).failures = [⟨"b", "boom"⟩] ∧
    (run_pipeline_core
        (fun u => if u = "b" then .error "boom" else .ok "")
        (fun url _ => { source_url := url })
        .ok
        [⟨"a"⟩, ⟨"b"⟩, ⟨"c"⟩]).summary.failure_count = 1 ∧
    (run_pipeline_core
        (fun u => if u = "b" then .error "boom" else .ok "")
        (fun url _ => { source_url := url })
        .ok
        [⟨"a"⟩, ⟨"b"⟩, ⟨"c"⟩]).summary.success_count = 2 :=
  claim_C3 _ _ _ "a" "b" "c" "boom" _ _
    (by decide) (by decide) (by decide) rfl rfl rfl

theorem loadJsonEntries_ok (items : List JsonValue)
    (h : items.all goodJsonEntry = true) : isOkE (loadJsonEntries items) = true := by
  induction items with
  | nil => rfl
  | cons e rest ih =>
      rw [List.all_cons, Bool.and_eq_true] at h
      have hrest := ih h.2
      cases hrec : loadJsonEntries rest with
      | error msg => rw [hrec] at hrest; exact absurd hrest (by simp [isOkE])
      | ok tail =>
          cases e with
          | jstr s =>
              by_cases hs : s = "" <;>
                simp [loadJsonEntries, jsonEntryUrl, truthyJson, hs, hrec, isOkE] <;> rfl
          | jobj fields =>
              have hgood := h.1
              rw [goodJsonEntry] at hgood
              cases hf : fields.lookup "url" with
              | none => simp [loadJsonEntries, jsonEntryUrl, truthyJson, hf, hrec, isOkE, hrest]
              | some v =>
                  cases v with
                  | jstr s =>
                      by_cases hs : s = "" <;>
                        simp [loadJsonEntries, jsonEntryUrl, truthyJson, hf, hs, hrec, isOkE] <;>
                        rfl
                  | jnull => rw [hf] at hgood; simp at hgood
                  | jbool b => rw [hf] at hgood; simp at hgood
                  | jnum q => rw [hf] at hgood; simp at hgood
                  | jarr xs => rw [hf] at hgood; simp at hgood
                  | jobj fs => rw [hf] at hgood; simp at hgood
          | jnull => simp [goodJsonEntry] at h
          | jbool b => simp [goodJsonEntry] at h
          | jnum q => simp [goodJsonEntry] at h
          | jarr xs => simp [goodJsonEntry] at h

/-- Claim C6: loading an input with an unsupported extension, a CSV without
a `url` column, or a JSON document that is not a list errors, and such a
load error fails the whole `run_pipeline` call with that error regardless
of the fetch/parse/image stages (so before any per-item processing or
network activity); JSON lists of plain strings or objects with a `url` key
load successfully. -/
theorem claim_C6 :
    (∀ (ext : String) (f : ParsedFile),
      ¬(pyLowerStr ext = ".csv" ∨ pyLowerStr ext = ".json") →
      loadInputs ext f = .error ("Unsupported input format: " ++ ext)) ∧
    (∀ (header : List String) (rows : List (List String)),
      header.contains "url" = false →
      loadInputs ".csv" (.csv header rows) = .error "CSV must contain a url column") ∧
    (∀ j : JsonValue, (∀ items, j ≠ .jarr items) →
      loadInputs ".json" (.json j) = .error "JSON input must be a list of objects with url") ∧
    (∀ items : List JsonValue, items.all goodJsonEntry = true →
      isOkE (loadInputs ".json" (.json (.jarr items))) = true) ∧
    (∀ (ext : String) (f : ParsedFile) (e : String), loadInputs ext f = .error e →
      ∀ (fetchF : String → Except String String)
        (parseF : String → String → RawProductData)
        (imagesF : RawProductData → Except String RawProductData),
        run_pipeline ext f fetchF parseF imagesF = .error e) := by
  refine ⟨?_, ?_, ?_, ?_, ?_⟩
  · intro ext f h
    simp [loadInputs, _validate_extension, h]
  · intro header rows h
    have : loadInputs ".csv" (.csv header rows) = _load_csv header rows := rfl
    rw [this, _load_csv, h]
    rfl
  · intro j hj
    cases j with
    | jarr items => exact absurd rfl (hj items)
    | jnull => rfl
    | jbool b => rfl
    | jnum q => rfl
    | jstr s => rfl
    | jobj fields => rfl
  · intro items h
    have : loadInputs ".json" (.json (.jarr items)) = loadJsonEntries items := rfl
    rw [this]
    exact loadJsonEntries_ok items h
  · intro ext f e h fetchF parseF imagesF
    rw [run_pipeline, h]
    rfl

/-- Witness for claim C6: concrete instances of each conjunct — a `.txt`
extension, a CSV lacking a `url` column, a JSON object instead of a list,
a well-formed JSON list, and the run-level failure. -/
theorem claim_C6_witness :
    loadInputs ".txt" (.json .jnull) = .error "Unsupported input format: .txt" ∧
    loadInputs ".csv" (.csv ["name"] [["p1"]]) = .error "CSV must contain a url column" ∧
    loadInputs ".json" (.json (.jobj [("url", .jstr "u")])) =
      .error "JSON input must be a list of objects with url" ∧
    isOkE (loadInputs ".json" (.json (.jarr [.jstr "http://a", .jobj [("url", .jstr "http://b")]]))) = true ∧
    run_pipeline ".txt" (.json .jnull) (fun _ => .ok "") (fun url _ => { source_url := url })
      .ok = .error "Unsupported input format: .txt" :=
  ⟨claim_C6.1 ".txt" (.json .jnull) (by decide),
   claim_C6.2.1 ["name"] [["p1"]] (by decide),
   claim_C6.2.2.1 (.jobj [("url", .jstr "u")]) (fun items h => JsonValue.noConfusion h),
   claim_C6.2.2.2.1 [.jstr "http://a", .jobj [("url", .jstr "http://b")]] (by decide),
   claim_C6.2.2.2.2 ".txt" (.json .jnull) "Unsupported input format: .txt" (by decide)
     (fun _ => .ok "") (fun url _ => { source_url := url }) .ok⟩

/-! ## Slugify invariants (claims C7 and C10) -/

theorem mem_of_head? {l : List α} {a : α} (h : l.head? = some a) : a ∈ l := by
  cases l with
  | nil => simp at h
  | cons b t =>
      simp at h
      subst h
      exact List.mem_cons_self b t

theorem mem_of_getLast? {l : List α} {a : α} (h : l.getLast? = some a) : a ∈ l := by
  have hr : l.reverse.head? = some a := by rwa [List.head?_reverse]
  simpa using mem_of_head? hr

theorem map_id_of (f : α → α) : ∀ l : List α, (∀ a ∈ l, f a = a) → l.map f = l := by
  intro l
  induction l with
  | nil => intro _; rfl
  | cons a t ih =>
      intro h
      rw [List.map_cons, h a (List.mem_cons_self a t),
        ih (fun b hb => h b (List.mem_cons_of_mem a hb))]

theorem asciiLower_fixed {c : Char} (h : allowedChar c = true) : asciiLower c = c := by
  have hn : ¬(65 ≤ c.toNat ∧ c.toNat ≤ 90) := by
    simp only [allowedChar, decide_eq_true_eq] at h
    rcases h with h | h | h
    · omega
    · omega
    · subst h; decide
  simp only [asciiLower]
  rw [if_neg hn]

theorem not_space_of_allowed {c : Char} (h : allowedChar c = true) : pyIsSpace c = false := by
  have h' : (97 ≤ c.toNat ∧ c.toNat ≤ 122) ∨ (48 ≤ c.toNat ∧ c.toNat ≤ 57) ∨
      c.toNat = 45 := by
    simp only [allowedChar, decide_eq_true_eq] at h
    rcases h with h | h | h
    · exact Or.inl h
    · exact Or.inr (Or.inl h)
    · subst h; exact Or.inr (Or.inr (by decide))
  simp only [pyIsSpace]
  apply decide_eq_false
  omega

theorem ne_space_of_allowed {c : Char} (h : allowedChar c = true) : c ≠ ' ' := by
  intro e
  subst e
  exact absurd h (by decide)

theorem subRuns_allowed :
    ∀ l : List Char,
      (∀ c ∈ subRuns l, allowedChar c = true) ∧
      (∀ c ∈ skipRun l, allowedChar c = true) := by
  intro l
  induction l with
  | nil => exact ⟨by simp [subRuns], by simp [skipRun]⟩
  | cons a cs ih =>
      constructor
      · intro c hc
        rw [subRuns] at hc
        by_cases ha : allowedChar a = true
        · rw [if_pos ha] at hc
          rcases List.mem_cons.mp hc with rfl | hc
          · exact ha
          · exact ih.1 c hc
        · rw [if_neg ha] at hc
          rcases List.mem_cons.mp hc with rfl | hc
          · decide
          · exact ih.2 c hc
      · intro c hc
        rw [skipRun] at hc
        by_cases ha : allowedChar a = true
        · rw [if_pos ha] at hc
          rcases List.mem_cons.mp hc with rfl | hc
          · exact ha
          · exact ih.1 c hc
        · rw [if_neg ha] at hc
          exact ih.2 c hc

theorem subRuns_id : ∀ l : List Char, (∀ c ∈ l, allowedChar c = true) → subRuns l = l := by
  intro l
  induction l with
  | nil => intro _; rfl
  | cons a cs ih =>
      intro h
      rw [subRuns, if_pos (h a (List.mem_cons_self a cs)),
        ih (fun c hc => h c (List.mem_cons_of_mem a hc))]

theorem collapse_allowed :
    ∀ l : List Char, (∀ c ∈ l, allowedChar c = true) →
      (∀ c ∈ collapseDashes l, allowedChar c = true) ∧
      (∀ c ∈ dropDashes l, allowedChar c = true) := by
  intro l
  induction l with
  | nil => intro _; exact ⟨by simp [collapseDashes], by simp [dropDashes]⟩
  | cons a cs ih =>
      intro h
      have hcs := ih (fun c hc => h c (List.mem_cons_of_mem a hc))
      have hall : allowedChar a = true := h a (List.mem_cons_self a cs)
      by_cases ha : a = '-'
      · subst ha
        constructor
        · intro c hc
          rw [collapseDashes, if_pos rfl] at hc
          rcases List.mem_cons.mp hc with rfl | hc
          · decide
          · exact hcs.2 c hc
        · intro c hc
          rw [dropDashes, if_pos rfl] at hc
          exact hcs.2 c hc
      · constructor
        · intro c hc
          rw [collapseDashes, if_neg ha] at hc
          rcases List.mem_cons.mp hc with rfl | hc
          · exact hall
          · exact hcs.1 c hc
        · intro c hc
          rw [dropDashes, if_neg ha] at hc
          rcases List.mem_cons.mp hc with rfl | hc
          · exact hall
          · exact hcs.1 c hc

theorem collapse_nodd :
    ∀ l : List Char,
      (¬ (['-', '-'] <:+: collapseDashes l)) ∧
      (¬ (['-', '-'] <:+: dropDashes l)) ∧ (dropDashes l).head? ≠ some '-' := by
  intro l
  induction l with
  | nil => exact ⟨by simp [collapseDashes], by simp [dropDashes], by simp [dropDashes]⟩
  | cons a cs ih =>
      obtain ⟨ih1, ih2, ih3⟩ := ih
      by_cases ha : a = '-'
      · subst ha
        refine ⟨?_, ?_, ?_⟩
        · rw [collapseDashes, if_pos rfl]
          intro hcon
          rcases List.infix_cons_iff.mp hcon with hpre | hinf
          · obtain ⟨-, u, hu⟩ := List.cons_prefix_cons.mp hpre
            apply ih3
            rw [← hu]
            simp
          · exact ih2 hinf
        · rw [dropDashes, if_pos rfl]
          exact ih2
        · rw [dropDashes, if_pos rfl]
          exact ih3
      · refine ⟨?_, ?_, ?_⟩
        · rw [collapseDashes, if_neg ha]
          intro hcon
          rcases List.infix_cons_iff.mp hcon with hpre | hinf
          · exact ha (List.cons_prefix_cons.mp hpre).1.symm
          · exact ih1 hinf
        · rw [dropDashes, if_neg ha]
          intro hcon
          rcases List.infix_cons_iff.mp hcon with hpre | hinf
          · exact ha (List.cons_prefix_cons.mp hpre).1.symm
          · exact ih1 hinf
        · rw [dropDashes, if_neg ha]
          simp [ha]

theorem collapse_id :
    ∀ l : List Char,
      (¬ (['-', '-'] <:+: l) → collapseDashes l = l) ∧
      (l.head? ≠ some '-' → ¬ (['-', '-'] <:+: l) → dropDashes l = l) := by
  intro l
  induction l with
  | nil => exact ⟨fun _ => rfl, fun _ _ => rfl⟩
  | cons a cs ih =>
      constructor
      · intro hno
        by_cases ha : a = '-'
        · subst ha
          rw [collapseDashes, if_pos rfl]
          congr 1
          refine ih.2 ?_ (fun hinf => hno (hinf.trans (List.suffix_cons '-' cs).isInfix))
          intro hh
          apply hno
          cases cs with
          | nil => simp at hh
          | cons b t =>
              simp at hh
              subst hh
              exact List.infix_cons_iff.mpr (Or.inl ⟨t, rfl⟩)
        · rw [collapseDashes, if_neg ha]
          congr 1
          exact ih.1 (fun hinf => hno (hinf.trans (List.suffix_cons a cs).isInfix))
      · intro hh hno
        have ha : a ≠ '-' := by
          intro e
          exact hh (by simp [e])
        rw [dropDashes, if_neg ha]
        congr 1
        exact ih.1 (fun hinf => hno (hinf.trans (List.suffix_cons a cs).isInfix))

theorem slug_core_allowed (l : List Char) :
    ∀ c ∈ stripDashes (collapseDashes (subRuns l)), allowedChar c = true := by
  intro c hc
  have h1 : c ∈ collapseDashes (subRuns l) := (stripEnds_ifx _ _).subset hc
  exact (collapse_allowed (subRuns l) (subRuns_allowed l).1).1 c h1

theorem slug_core_nodd (l : List Char) :
    ¬ (['-', '-'] <:+: stripDashes (collapseDashes (subRuns l))) := by
  intro hcon
  exact (collapse_nodd (subRuns l)).1 (hcon.trans (stripEnds_ifx _ _))

theorem slug_core_head (l : List Char) :
    (stripDashes (collapseDashes (subRuns l))).head? ≠ some '-' := by
  intro hcon
  have := stripEnds_head? (fun c => c = '-') (collapseDashes (subRuns l)) '-' hcon
  simp at this

theorem slug_core_last (l : List Char) :
    (stripDashes (collapseDashes (subRuns l))).getLast? ≠ some '-' := by
  intro hcon
  have := stripEnds_getLast? (fun c => c = '-') (collapseDashes (subRuns l)) '-' hcon
  simp at this

theorem slugify_invariants (s : String) :
    (slugify s).data ≠ [] ∧
    (slugify s).data.all allowedChar = true ∧
    (slugify s).data.head? ≠ some '-' ∧
    (slugify s).data.getLast? ≠ some '-' ∧
    ¬ (['-', '-'] <:+: (slugify s).data) := by
  simp only [slugify]
  split
  · exact ⟨by decide, by decide, by decide, by decide, by decide⟩
  · next hne =>
      refine ⟨?_, ?_, slug_core_head _, slug_core_last _, slug_core_nodd _⟩
      · intro hnil
        exact hne (List.isEmpty_iff.mpr hnil)
      · rw [List.all_eq_true]
        intro c hc
        exact slug_core_allowed _ c hc

theorem slugify_of_invariants (r : String)
    (h1 : r.data ≠ [])
    (h2 : ∀ c ∈ r.data, allowedChar c = true)
    (h3 : r.data.head? ≠ some '-')
    (h4 : r.data.getLast? ≠ some '-')
    (h5 : ¬ (['-', '-'] <:+: r.data)) : slugify r = r := by
  have e1 : r.data.map asciiLower = r.data :=
    map_id_of _ _ (fun a ha => asciiLower_fixed (h2 a ha))
  have e2 : pyStripList r.data = r.data :=
    stripEnds_eq_self _ _
      (fun a ha => not_space_of_allowed (h2 a (mem_of_head? ha)))
      (fun a ha => not_space_of_allowed (h2 a (mem_of_getLast? ha)))
  have e3 : r.data.map (fun c => if c = ' ' then '-' else c) = r.data :=
    map_id_of _ _ (fun a ha => if_neg (ne_space_of_allowed (h2 a ha)))
  have e4 : subRuns r.data = r.data := subRuns_id _ h2
  have e5 : collapseDashes r.data = r.data := (collapse_id r.data).1 h5
  have e6 : stripDashes r.data = r.data := by
    refine stripEnds_eq_self _ _ (fun a ha => ?_) (fun a ha => ?_)
    · have : a ≠ '-' := fun e => h3 (e ▸ ha)
      exact decide_eq_false this
    · have : a ≠ '-' := fun e => h4 (e ▸ ha)
      exact decide_eq_false this
  have hemp : ¬(r.data.isEmpty = true) := fun hcon => h1 (List.isEmpty_iff.mp hcon)
  simp only [slugify]
  rw [e1, e2, e3, e4, e5, e6, if_neg hemp]

/-- Claim C7: `slugify "Cafe24 Product" = "cafe24-product"`,
`slugify "" = "product"`, and for every input string the output is
nonempty, consists only of `[a-z0-9-]` characters, has no leading,
trailing, or duplicate dashes (defaulting to `"product"` when the cleaned
value is empty, as the second example shows). -/
theorem claim_C7 :
    slugify "Cafe24 Product" = "cafe24-product" ∧
    slugify "" = "product" ∧
    ∀ s : String,
      (slugify s).data ≠ [] ∧
      (slugify s).data.all allowedChar = true ∧
      (slugify s).data.head? ≠ some '-' ∧
      (slugify s).data.getLast? ≠ some '-' ∧
      ¬ (['-', '-'] <:+: (slugify s).data) :=
  ⟨by decide, by decide, slugify_invariants⟩

/-- Witness for claim C7 at a concrete input containing an uppercase
letter, a space and punctuation. -/
theorem claim_C7_witness :
    (slugify "Hello, World!").data ≠ [] ∧
    (slugify "Hello, World!").data.all allowedChar = true ∧
    (slugify "Hello, World!").data.head? ≠ some '-' ∧
    (slugify "Hello, World!").data.getLast? ≠ some '-' ∧
    ¬ (['-', '-'] <:+: (slugify "Hello, World!").data) :=
  claim_C7.2.2 "Hello, World!"

/-- Claim C10: `slugify` is idempotent — its output satisfies the slug
invariants, and every stage of `slugify` is the identity on strings
satisfying them. -/
theorem claim_C10 (s : String) : slugify (slugify s) = slugify s := by
  obtain ⟨h1, h2, h3, h4, h5⟩ := slugify_invariants s
  exact slugify_of_invariants _ h1 (List.all_eq_true.mp h2) h3 h4 h5

end Scraper
